import Mathlib

/-!
Shallow embedding of wangle's per-listener TLS context manager
(src/wangle/ssl/SSLContextManager.cpp).

Domain names are modelled as lists of characters (the source's DNString,
a std::basic_string over char).  Context handles (ServerSSLContext) are
modelled by a record carrying an identifier, the certificate most
recently loaded into the context (what getX509 extracts), and the state
of the attached ticket manager.  The dnMap (std::map keyed by
SSLContextKey) is modelled as an association list with unique keys,
mutated only through insertIntoDnMap, which mirrors the source's
find/emplace/assign logic.  C++ exceptions are modelled by returning
the (possibly partially mutated) state together with an optional error
message, matching in-place mutation of a ContextSet that persists after
a throw.
-/

namespace Wangle

/-- Crypto tier of a certificate or of a client request
(CertCrypto in SSLContextManager.h): SHA1_SIGNATURE is the weak tier,
BEST_AVAILABLE the modern one. -/
inductive CertCrypto where
  | SHA1_SIGNATURE
  | BEST_AVAILABLE
deriving DecidableEq, Repr

/-- Domain names: the source's DNString, a character string. -/
abbrev DNString := List Char

/-- Lookup key of the name index: (domain name, crypto tier),
mirroring SSLContextKey in SSLContextManager.h. -/
structure SSLContextKey where
  dnString : DNString
  certCrypto : CertCrypto
deriving DecidableEq, Repr

/-- Ticket seed triple (TLSTicketKeySeeds): old, current and new seeds,
each a list of opaque byte strings. -/
structure TLSTicketKeySeeds where
  oldSeeds : List String
  currentSeeds : List String
  newSeeds : List String
deriving DecidableEq, Repr

/-- Signature algorithm NID of a certificate, as tested by insert():
only the two SHA-1 NIDs are distinguished from everything else. -/
inductive SigNid where
  | sha1WithRSAEncryption
  | ecdsa_with_SHA1
  | other
deriving DecidableEq, Repr

/-- Parsed identity content of an X509 certificate: the Common Name
(SSLUtil::getCommonName, which can fail), the optional Subject
Alternative Name list (SSLUtil::getSubjectAltName) and the signature
algorithm NID (X509_get_signature_nid). -/
structure X509 where
  cn : Option DNString
  subjectAltName : Option (List DNString)
  sigAlg : SigNid
deriving DecidableEq, Repr

/-- A built server context handle (ServerSSLContext).  `cert` is the
certificate getX509 extracts from the context (the last one loaded);
`ticketManager` is `some seeds` when a ticket manager holding `seeds`
is attached, `none` when getTicketManager() is null. -/
structure ServerSSLContext where
  id : Nat
  cert : X509
  ticketManager : Option TLSTicketKeySeeds
deriving DecidableEq, Repr

/-- The atomic unit of replacement (SSLContextManager::SslContexts):
context list, default context, default domain and the name index. -/
structure SslContexts where
  ctxs : List ServerSSLContext
  defaultCtx : Option ServerSSLContext
  defaultCtxDomainName : DNString
  dnMap : List (SSLContextKey × ServerSSLContext)
deriving DecidableEq, Repr

/-- State after SslContexts::clear(), and the initial state of a freshly
constructed local SslContexts in resetSSLContextConfigs. -/
def emptyContexts : SslContexts :=
  { ctxs := [], defaultCtx := none, defaultCtxDomainName := [], dnMap := [] }

/-- Lookup in the association list modelling dnMap (std::map::find). -/
def dnMapFind (m : List (SSLContextKey × ServerSSLContext)) (k : SSLContextKey) :
    Option ServerSSLContext :=
  match m with
  | [] => none
  | p :: rest => if p.1 = k then some p.2 else dnMapFind rest k

/-- Replace the value stored at key `k` (the source's `v->second = sslCtx`
on the iterator returned by find). -/
def mapReplace (m : List (SSLContextKey × ServerSSLContext)) (k : SSLContextKey)
    (v : ServerSSLContext) : List (SSLContextKey × ServerSSLContext) :=
  m.map (fun p => if p.1 = k then (p.1, v) else p)

/-- SSLContextManager::insertIntoDnMap: emplace when the key is absent;
when present, ignore a duplicate of the same context, overwrite a
different context only when `overwrite` is set, else leave the map. -/
def insertIntoDnMap (key : SSLContextKey) (sslCtx : ServerSSLContext)
    (overwrite : Bool) (contexts : SslContexts) : SslContexts :=
  match dnMapFind contexts.dnMap key with
  | none => { contexts with dnMap := contexts.dnMap ++ [(key, sslCtx)] }
  | some v =>
    if v = sslCtx then contexts
    else if overwrite then { contexts with dnMap := mapReplace contexts.dnMap key sslCtx }
    else contexts

/-- Wildcard normalization of insertSSLCtxByDomainNameImpl: when the name
has length above two and starts with a star, the star must be followed
by a dot and is stripped (keeping the dot); a star followed by anything
else is an error. -/
def stripStarLabel (dn : DNString) : Except String DNString :=
  match dn with
  | a :: b :: c :: r =>
    if a = '*' then
      if b = '.' then .ok (b :: c :: r)
      else .error "Invalid wildcard CN or subject-alternative-name (only dot may follow star)"
    else .ok (a :: b :: c :: r)
  | dn => .ok dn

/-- SSLContextManager::insertSSLCtxByDomainNameImpl: normalize the
wildcard form, reject a bare dot and any remaining star, then insert at
the certificate's tier with overwrite semantics, and, for a weak
certificate, additionally at BEST_AVAILABLE without overwrite. -/
def insertSSLCtxByDomainNameImpl (dn : DNString) (sslCtx : ServerSSLContext)
    (contexts : SslContexts) (certCrypto : CertCrypto) :
    SslContexts × Option String :=
  match stripStarLabel dn with
  | .error e => (contexts, some e)
  | .ok dn2 =>
    if dn2 = ['.'] then
      (contexts, some "X509 has only dot in the CN or subject alternative name")
    else if '*' ∈ dn2 then
      (contexts, some "X509 has star in the CN or subject alternative name")
    else
      if certCrypto ≠ CertCrypto.BEST_AVAILABLE then
        (insertIntoDnMap ⟨dn2, CertCrypto.BEST_AVAILABLE⟩ sslCtx false
          (insertIntoDnMap ⟨dn2, certCrypto⟩ sslCtx true contexts), none)
      else (insertIntoDnMap ⟨dn2, certCrypto⟩ sslCtx true contexts, none)

/-- SSLContextManager::insertSSLCtxByDomainName: in strict mode the
error propagates; otherwise it is logged and swallowed. -/
def insertSSLCtxByDomainName (strict : Bool) (dn : DNString)
    (sslCtx : ServerSSLContext) (contexts : SslContexts)
    (certCrypto : CertCrypto) : SslContexts × Option String :=
  match insertSSLCtxByDomainNameImpl dn sslCtx contexts certCrypto with
  | (c, some e) => if strict then (c, some e) else (c, none)
  | (c, none) => (c, none)

/-- The SAN insertion loop of SSLContextManager::insert: names are
inserted in order; a strict-mode error aborts the loop, keeping the
insertions already performed. -/
def insertAltNames (strict : Bool) :
    List DNString → ServerSSLContext → SslContexts → CertCrypto →
    SslContexts × Option String
  | [], _, c, _ => (c, none)
  | dn :: rest, sslCtx, c, cc =>
    match insertSSLCtxByDomainName strict dn sslCtx c cc with
    | (c2, some e) => (c2, some e)
    | (c2, none) => insertAltNames strict rest sslCtx c2 cc

/-- Tier classification performed by SSLContextManager::insert from the
certificate's signature NID. -/
def certCryptoOf (x : X509) : CertCrypto :=
  if x.sigAlg = SigNid.sha1WithRSAEncryption ∨ x.sigAlg = SigNid.ecdsa_with_SHA1 then
    CertCrypto.SHA1_SIGNATURE
  else CertCrypto.BEST_AVAILABLE

/-- SSLContextManager::insert: extract the CN (error when absent);
a star-only CN must be the default and is stored in ctxs without
indexing; otherwise index CN and SANs at the certificate's tier,
record the CN as default domain when the handle is default, and append
the handle to ctxs. -/
def insert (sslCtx : ServerSSLContext) (defaultFallback : Bool) (strict : Bool)
    (contexts : SslContexts) : SslContexts × Option String :=
  match sslCtx.cert.cn with
  | none => (contexts, some "Cannot get CN")
  | some cn =>
    if cn = ['*'] then
      if !defaultFallback then (contexts, some "STAR X509 is not the default")
      else ({ contexts with ctxs := contexts.ctxs ++ [sslCtx] }, none)
    else
      let certCrypto := certCryptoOf sslCtx.cert
      match insertSSLCtxByDomainName strict cn sslCtx contexts certCrypto with
      | (c, some e) => (c, some e)
      | (c1, none) =>
        match insertAltNames strict
            (match sslCtx.cert.subjectAltName with | some l => l | none => [])
            sslCtx c1 certCrypto with
        | (c, some e) => (c, some e)
        | (c2, none) =>
          let c3 := if defaultFallback then { c2 with defaultCtxDomainName := cn } else c2
          ({ c3 with ctxs := c3.ctxs ++ [sslCtx] }, none)

/-- SSLContextManager::getSSLCtxByExactDomain: a plain dnMap lookup. -/
def getSSLCtxByExactDomain (contexts : SslContexts) (key : SSLContextKey) :
    Option ServerSSLContext :=
  dnMapFind contexts.dnMap key

/-- True when the name contains a dot (find_first_of returning a
position other than npos). -/
def hasDot (n : DNString) : Bool := n.any (fun c => decide (c = '.'))

/-- The portion of the name from its first dot onward, dot included:
the suffix key DNString(key.dnString, dot) built by getSSLCtxBySuffix. -/
def suffixFromFirstDot (n : DNString) : DNString :=
  n.dropWhile (fun c => decide (c ≠ '.'))

/-- SSLContextManager::getSSLCtxBySuffix: when the queried name contains
a dot, look up the suffix from the first dot onward at the same tier;
otherwise no wildcard match. -/
def getSSLCtxBySuffix (contexts : SslContexts) (key : SSLContextKey) :
    Option ServerSSLContext :=
  if hasDot key.dnString then
    dnMapFind contexts.dnMap ⟨suffixFromFirstDot key.dnString, key.certCrypto⟩
  else none

/-- SSLContextManager::getSSLCtx: exact match first, then suffix. -/
def getSSLCtx (contexts : SslContexts) (key : SSLContextKey) :
    Option ServerSSLContext :=
  match getSSLCtxByExactDomain contexts key with
  | some ctx => some ctx
  | none => getSSLCtxBySuffix contexts key

/-- Hash algorithm half of a ClientHello signature-algorithm pair
(folly::ssl::HashAlgorithm). -/
inductive HashAlgorithm where
  | NONE
  | MD5
  | SHA1
  | SHA224
  | SHA256
  | SHA384
  | SHA512
deriving DecidableEq, Repr

/-- Signature algorithm half of a ClientHello signature-algorithm pair
(folly::ssl::SignatureAlgorithm). -/
inductive SignatureAlgorithm where
  | ANONYMOUS
  | RSA
  | DSA
  | ECDSA
deriving DecidableEq, Repr

/-- TLS extension codes as observed in clientHelloExtensions_
(folly::ssl::TLSExtension); only SERVER_NAME is tested by the code,
the rest are collapsed. -/
inductive TLSExtension where
  | SERVER_NAME
  | SUPPORTED_GROUPS
  | SIGNATURE_ALGORITHMS
  | OTHER
deriving DecidableEq, Repr

/-- Parsed ClientHello information (folly::ssl::ClientHelloInfo):
advertised signature algorithms and extension list. -/
structure ClientHelloInfo where
  clientHelloSigAlgs : List (HashAlgorithm × SignatureAlgorithm)
  clientHelloExtensions : List TLSExtension
deriving DecidableEq, Repr

/-- Crypto-tier inference of serverNameCallback: BEST_AVAILABLE by
default; with ClientHello info, start at SHA1_SIGNATURE, move back to
BEST_AVAILABLE on the first SHA256 sigalg, and force BEST_AVAILABLE
when the SERVER_NAME extension is present. -/
def inferCertCryptoReq (clientInfo : Option ClientHelloInfo) : CertCrypto :=
  match clientInfo with
  | none => CertCrypto.BEST_AVAILABLE
  | some info =>
    let afterSigAlgs :=
      if info.clientHelloSigAlgs.any (fun p => decide (p.1 = HashAlgorithm.SHA256)) then
        CertCrypto.BEST_AVAILABLE
      else CertCrypto.SHA1_SIGNATURE
    if info.clientHelloExtensions.any (fun e => decide (e = TLSExtension.SERVER_NAME)) then
      CertCrypto.BEST_AVAILABLE
    else afterSigAlgs

/-- One iteration of the lookup loop of serverNameCallback: getSSLCtx at
the requested tier, then, when the request is not already
BEST_AVAILABLE, getSSLCtx again at BEST_AVAILABLE. -/
def lookupPass (contexts : SslContexts) (dnstr : DNString)
    (certCryptoReq : CertCrypto) : Option ServerSSLContext :=
  match getSSLCtx contexts ⟨dnstr, certCryptoReq⟩ with
  | some ctx => some ctx
  | none =>
    if certCryptoReq ≠ CertCrypto.BEST_AVAILABLE then
      getSSLCtx contexts ⟨dnstr, CertCrypto.BEST_AVAILABLE⟩
    else none

/-- Observable outcome of serverNameCallback: the context switched to
(none models SERVER_NAME_NOT_FOUND), whether the request carried a
server name (drives recordAbsentHostname / recordMatch / recordNotMatch),
the name used for lookup, how many times the no-match hook ran, and the
context set after any hook mutation. -/
structure SNIResult where
  found : Option ServerSSLContext
  reqHasServerName : Bool
  usedName : DNString
  hookCalls : Nat
  finalContexts : SslContexts
deriving DecidableEq, Repr

/-- SSLContextManager::serverNameCallback.  `servername` is the result
of SSL_get_servername (none models a null pointer).  The no-match hook
is modelled as a state transformer on the live context set returning
the bool the source's noMatchFn_ returns; the do/while loop with
`count++ == 0` runs a second lookup pass only when the hook ran and
returned true. -/
def serverNameCallback (contexts : SslContexts)
    (noMatchFn : Option (DNString → SslContexts → SslContexts × Bool))
    (servername : Option DNString) (clientInfo : Option ClientHelloInfo) :
    SNIResult :=
  let reqHasServerName := servername.isSome
  let sn := match servername with
    | some s => s
    | none => contexts.defaultCtxDomainName
  let certCryptoReq := inferCertCryptoReq clientInfo
  match lookupPass contexts sn certCryptoReq with
  | some ctx =>
    { found := some ctx, reqHasServerName := reqHasServerName, usedName := sn,
      hookCalls := 0, finalContexts := contexts }
  | none =>
    match noMatchFn with
    | none =>
      { found := none, reqHasServerName := reqHasServerName, usedName := sn,
        hookCalls := 0, finalContexts := contexts }
    | some fn =>
      match fn sn contexts with
      | (contexts2, true) =>
        { found := lookupPass contexts2 sn certCryptoReq,
          reqHasServerName := reqHasServerName, usedName := sn,
          hookCalls := 1, finalContexts := contexts2 }
      | (contexts2, false) =>
        { found := none, reqHasServerName := reqHasServerName, usedName := sn,
          hookCalls := 1, finalContexts := contexts2 }

/-- Lexicographic byte order on domain names (std::string operator<),
used by std::list::sort on the SAN list. -/
def dnLe : DNString → DNString → Bool
  | [], _ => true
  | _ :: _, [] => false
  | x :: xs, y :: ys => if x = y then dnLe xs ys else decide (x < y)

/-- Ordered insertion step of the sort. -/
def insertSorted (x : DNString) : List DNString → List DNString
  | [] => [x]
  | y :: ys => if dnLe x y then x :: y :: ys else y :: insertSorted x ys

/-- The altName->sort() call of addSSLContextConfig: sort the SAN list
before comparing it across the certificates of one entry. -/
def sortDN : List DNString → List DNString
  | [] => []
  | x :: xs => insertSorted x (sortDN xs)

/-- One certificate entry of an SSLContextConfig.  `loadResult` is the
outcome of loadCertificate on certPath (none models a load failure);
`keyLoadOk` the outcome of loadPrivateKey on keyPath. -/
structure CertEntry where
  certPath : String
  keyPath : String
  passwordPath : String
  loadResult : Option X509
  keyLoadOk : Bool
deriving DecidableEq, Repr

/-- The slice of SSLContextConfig the manager's own logic reads.
`setupError`, when set, models a failure thrown by the context setup
calls between the certificate loop and insertion (setCiphersOrThrow,
curve resolution, client-CA loading); those calls act only on the
local context under construction, never on a ContextSet. -/
structure SSLContextConfig where
  certificates : List CertEntry
  isLocalPrivateKey : Bool
  offloadTypeEmpty : Bool
  setupError : Option String
  isDefault : Bool
deriving DecidableEq, Repr

/-- Per-certificate private key acquisition inside the loop of
addSSLContextConfig: with a local key, loadPrivateKey may fail with a
message naming the key path; with offload, delegation succeeds. -/
def certKeyStep (localKey : Bool) (e : CertEntry) : Except String Unit :=
  if localKey then
    if e.keyLoadOk then .ok () else .error ("error loading private SSL key " ++ e.keyPath)
  else .ok ()

/-- The certificate loop of addSSLContextConfig: load each certificate,
extract its CN (failing when absent), compare CN and sorted SAN list
against the first certificate of the entry, and acquire the key.
Returns the last successfully loaded certificate, the one getX509 sees
on the finished context. -/
def certLoop (localKey : Bool)
    (firstIdentity : Option (DNString × Option (List DNString)))
    (lastCertPath : String) (lastX : Option X509) :
    List CertEntry → Except String (Option X509)
  | [] => .ok lastX
  | e :: rest =>
    match e.loadResult with
    | none => .error ("error loading SSL certificate " ++ e.certPath)
    | some x =>
      match x.cn with
      | none => .error ("Cannot get CN for X509 " ++ e.certPath)
      | some cn =>
        let sortedSan : Option (List DNString) := x.subjectAltName.map sortDN
        match firstIdentity with
        | none =>
          match certKeyStep localKey e with
          | .error err => .error err
          | .ok _ => certLoop localKey (some (cn, sortedSan)) e.certPath (some x) rest
        | some (cn0, san0) =>
          if cn0 ≠ cn then
            .error ("X509 " ++ e.certPath ++ " does not have same CN as " ++ lastCertPath)
          else if san0 ≠ sortedSan then
            .error ("X509 " ++ e.certPath ++ " does not have same SAN as " ++ lastCertPath)
          else
            match certKeyStep localKey e with
            | .error err => .error err
            | .ok _ => certLoop localKey firstIdentity e.certPath (some x) rest

/-- Modelled from the spec: ServerSSLContext::setupTicketManager is not
part of the analysed source; per the spec it hands the ticket seeds to
the ticket-manager subsystem, so a context built with seeds carries a
ticket manager holding exactly those seeds, and no seed triple yields
no manager state to report. -/
def setupTicketManager (ticketSeeds : Option TLSTicketKeySeeds) :
    Option TLSTicketKeySeeds :=
  ticketSeeds

/-- The SNI block of ctxSetupByOpensslFeature: a second default is a
fatal error, otherwise a default handle becomes the set's defaultCtx
(the wiring of the server-name callback has no observable state here). -/
def ctxSetupByOpensslFeature (sslCtx : ServerSSLContext) (isDefault : Bool)
    (contexts : SslContexts) : SslContexts × Option String :=
  if isDefault then
    match contexts.defaultCtx with
    | some _ => (contexts, some "more than one X509 is set as default")
    | none => ({ contexts with defaultCtx := some sslCtx }, none)
  else (contexts, none)

/-- Placeholder certificate of a context whose entry listed no
certificate files: CN extraction fails on it, as getCommonName does on
a context without a certificate. -/
def noCert : X509 := { cn := none, subjectAltName := none, sigAlg := SigNid.other }

/-- The context handle addSSLContextConfig builds: a fresh identifier,
the certificate getX509 extracts (the last one loaded, or the
placeholder when the entry listed none), and the ticket manager
attached from the given seeds. -/
def buildCtx (ticketSeeds : Option TLSTicketKeySeeds) (freshId : Nat)
    (lastX : Option X509) : ServerSSLContext :=
  { id := freshId,
    cert := match lastX with | some x => x | none => noCert,
    ticketManager := setupTicketManager ticketSeeds }

/-- SSLContextManager::addSSLContextConfig against an explicit target
ContextSet (the live one for the public add, the local one during
reset): run the certificate loop and context setup, build the handle
with its ticket manager, then mutate the target set through
ctxSetupByOpensslFeature and insert; an error from insert is rethrown
with the "Error adding certificate" prefix.  On error the target set
keeps whatever mutations happened before the throw. -/
def addSSLContextConfig (strict : Bool) (ctxConfig : SSLContextConfig)
    (ticketSeeds : Option TLSTicketKeySeeds) (freshId : Nat)
    (contexts : SslContexts) : SslContexts × Option String :=
  match certLoop (ctxConfig.isLocalPrivateKey || ctxConfig.offloadTypeEmpty)
      none "" none ctxConfig.certificates with
  | .error e => (contexts, some e)
  | .ok lastX =>
    match ctxConfig.setupError with
    | some e => (contexts, some e)
    | none =>
      let sslCtx := buildCtx ticketSeeds freshId lastX
      match ctxSetupByOpensslFeature sslCtx ctxConfig.isDefault contexts with
      | (c, some e) => (c, some e)
      | (c1, none) =>
        match insert sslCtx ctxConfig.isDefault strict c1 with
        | (c2, some e) => (c2, some ("Error adding certificate : " ++ e))
        | (c2, none) => (c2, none)

/-- The loop of resetSSLContextConfigs over the configuration entries,
building into the local ContextSet and aborting on the first error. -/
def addAllConfigs (strict : Bool) :
    List SSLContextConfig → TLSTicketKeySeeds → Nat → SslContexts →
    SslContexts × Option String
  | [], _, _, c => (c, none)
  | cfg :: rest, seeds, freshId, c =>
    match addSSLContextConfig strict cfg (some seeds) freshId c with
    | (c2, some e) => (c2, some e)
    | (c2, none) => addAllConfigs strict rest seeds (freshId + 1) c2

/-- Default-constructed TLSTicketKeySeeds: three empty seed lists. -/
def emptyTicketSeeds : TLSTicketKeySeeds :=
  { oldSeeds := [], currentSeeds := [], newSeeds := [] }

/-- The seed-recovery scan of resetSSLContextConfigs: walk the live
ctxs, and take the seed triple of the first context whose ticket
manager is non-null; without one the triple stays default-empty. -/
def scanFirstSeeds : List ServerSSLContext → TLSTicketKeySeeds
  | [] => emptyTicketSeeds
  | ctx :: rest =>
    match ctx.ticketManager with
    | some tm => tm
    | none => scanFirstSeeds rest

/-- SSLContextManager::resetSSLContextConfigs: when the caller supplies
no seeds, recover them from the live set; build every entry into a
fresh local ContextSet; only when every entry succeeded swap it in.
An exception propagates before the swap, leaving the live set as it
was. -/
def resetSSLContextConfigs (strict : Bool) (ctxConfigs : List SSLContextConfig)
    (ticketSeeds : Option TLSTicketKeySeeds) (baseId : Nat)
    (live : SslContexts) : SslContexts × Option String :=
  let oldTicketSeeds := match ticketSeeds with
    | some _ => emptyTicketSeeds
    | none => scanFirstSeeds live.ctxs
  let effSeeds := match ticketSeeds with
    | some s => s
    | none => oldTicketSeeds
  match addAllConfigs strict ctxConfigs effSeeds baseId emptyContexts with
  | (_, some e) => (live, some e)
  | (fresh, none) => (fresh, none)

/-! Concrete instances used to exercise the theorems on closed inputs. -/

/-- A certificate with the given CN, no SANs, and a modern signature. -/
def certPlain (n : DNString) : X509 :=
  { cn := some n, subjectAltName := none, sigAlg := SigNid.other }

/-- A weak (SHA-1 signed) certificate with the given CN and no SANs. -/
def certWeak (n : DNString) : X509 :=
  { cn := some n, subjectAltName := none, sigAlg := SigNid.sha1WithRSAEncryption }

/-- A bare context handle with the given identifier. -/
def demoCtx (i : Nat) : ServerSSLContext :=
  { id := i, cert := noCert, ticketManager := none }

/-- Index holding an exact entry for a.example and a wildcard entry for
.example, both at the weak tier. -/
def demoSetExactAndWildcard : SslContexts :=
  { emptyContexts with dnMap :=
      [(⟨"a.example".toList, CertCrypto.SHA1_SIGNATURE⟩, demoCtx 1),
       (⟨".example".toList, CertCrypto.SHA1_SIGNATURE⟩, demoCtx 2)] }

/-- ClientHello advertising only a SHA-1 signature algorithm and no
extensions. -/
def demoHelloSha1Only : ClientHelloInfo :=
  { clientHelloSigAlgs := [(HashAlgorithm.SHA1, SignatureAlgorithm.RSA)],
    clientHelloExtensions := [] }

/-- Index holding a single best-available entry for a.example. -/
def demoSetExactOnly : SslContexts :=
  { emptyContexts with dnMap :=
      [(⟨"a.example".toList, CertCrypto.BEST_AVAILABLE⟩, demoCtx 3)] }

/-- Index holding only the wildcard storage form of *.d.example. -/
def demoSetWildcardOnly : SslContexts :=
  { emptyContexts with dnMap :=
      [(⟨".d.example".toList, CertCrypto.BEST_AVAILABLE⟩, demoCtx 4)] }

/-- A live set whose single context carries ticket seeds. -/
def demoSeeds : TLSTicketKeySeeds :=
  { oldSeeds := ["O"], currentSeeds := ["C"], newSeeds := ["N"] }

/-- Certificate, entry and configuration for a plain a.example context. -/
def demoCertA : X509 := certPlain ("a.example".toList)

/-- Loadable certificate entry for demoCertA. -/
def demoEntryA : CertEntry :=
  { certPath := "a.pem", keyPath := "a.key", passwordPath := "",
    loadResult := some demoCertA, keyLoadOk := true }

/-- Valid non-default configuration with the single entry demoEntryA. -/
def demoCfgA : SSLContextConfig :=
  { certificates := [demoEntryA], isLocalPrivateKey := true,
    offloadTypeEmpty := true, setupError := none, isDefault := false }

/-- Live set before a reset: one context holding demoSeeds. -/
def demoLiveSeeded : SslContexts :=
  { emptyContexts with ctxs :=
      [{ id := 0, cert := demoCertA, ticketManager := some demoSeeds }] }

/-- Configuration whose only certificate fails to load. -/
def demoCfgBadLoad : SSLContextConfig :=
  { certificates :=
      [{ certPath := "broken.pem", keyPath := "broken.key", passwordPath := "",
         loadResult := none, keyLoadOk := true }],
    isLocalPrivateKey := true, offloadTypeEmpty := true,
    setupError := none, isDefault := false }

/-- Certificate whose CN is fine but whose SAN list carries a bad
wildcard (star not followed by dot). -/
def demoCertBadSan : X509 :=
  { cn := some ("ok.example".toList), subjectAltName := some ["*bad".toList],
    sigAlg := SigNid.other }

/-- Default-flagged configuration carrying demoCertBadSan. -/
def demoCfgBadSan : SSLContextConfig :=
  { certificates :=
      [{ certPath := "ok.pem", keyPath := "ok.key", passwordPath := "",
         loadResult := some demoCertBadSan, keyLoadOk := true }],
    isLocalPrivateKey := true, offloadTypeEmpty := true,
    setupError := none, isDefault := true }

/-- Certificate whose CN is the literal single star. -/
def demoCertStar : X509 :=
  { cn := some ['*'], subjectAltName := none, sigAlg := SigNid.other }

/-- Default-flagged configuration carrying the star-CN certificate. -/
def demoCfgStar : SSLContextConfig :=
  { certificates :=
      [{ certPath := "star.pem", keyPath := "star.key", passwordPath := "",
         loadResult := some demoCertStar, keyLoadOk := true }],
    isLocalPrivateKey := true, offloadTypeEmpty := true,
    setupError := none, isDefault := true }

/-- The context handle the star configuration builds under id 3 with no
ticket seeds. -/
def demoStarCtx : ServerSSLContext :=
  { id := 3, cert := demoCertStar, ticketManager := none }

/-- Index with the default domain d.example and a matching entry, used
to contrast an absent SNI with an empty-string SNI. -/
def demoSetDefaultDomain : SslContexts :=
  { emptyContexts with
      defaultCtxDomainName := "d.example".toList,
      dnMap := [(⟨"d.example".toList, CertCrypto.BEST_AVAILABLE⟩, demoCtx 5)] }

/-- The context the reset of demoCfgA against demoLiveSeeded builds
when the fresh identifiers start at 5. -/
def demoBuiltA : ServerSSLContext :=
  { id := 5, cert := demoCertA, ticketManager := some demoSeeds }

/-- A bare handle carrying the a.example certificate, for direct
insertion. -/
def demoCtxA : ServerSSLContext :=
  { id := 6, cert := demoCertA, ticketManager := none }

/-- A no-match hook that installs an exact entry for b.example into the
live set and then reports failure (returns false). -/
def demoHookAddsButFalse : DNString → SslContexts → SslContexts × Bool :=
  fun _ c =>
    (insertIntoDnMap ⟨"b.example".toList, CertCrypto.BEST_AVAILABLE⟩ (demoCtx 9) true c,
     false)

/-! Helper lemmas. -/

/-- A name without a dot makes hasDot false. -/
theorem hasDot_eq_false (n : DNString) (h : '.' ∉ n) : hasDot n = false := by
  induction n with
  | nil => rfl
  | cons a t ih =>
    have ha : ¬ a = '.' := fun e => h (by simp [e])
    have ht : '.' ∉ t := fun m => h (List.mem_cons_of_mem a m)
    simp only [hasDot, List.any_cons, Bool.or_eq_false_iff]
    exact ⟨by simp [ha], ih ht⟩

/-- A name containing a dot makes hasDot true. -/
theorem hasDot_eq_true (x d : DNString) : hasDot (x ++ '.' :: d) = true := by
  simp only [hasDot, List.any_eq_true]
  exact ⟨'.', by simp, by simp⟩

/-- The suffix from the first dot of label ++ dot ++ rest is dot ++ rest
when the label itself has no dot. -/
theorem suffixFromFirstDot_append (x d : DNString) (h : '.' ∉ x) :
    suffixFromFirstDot (x ++ '.' :: d) = '.' :: d := by
  induction x with
  | nil => simp [suffixFromFirstDot, List.dropWhile]
  | cons a t ih =>
    have ha : ¬ a = '.' := fun e => h (by simp [e])
    have ht : '.' ∉ t := fun m => h (List.mem_cons_of_mem a m)
    have hpa : decide (a ≠ '.') = true := by simp [ha]
    show List.dropWhile (fun c => decide (c ≠ '.')) (a :: (t ++ '.' :: d)) = '.' :: d
    rw [List.dropWhile_cons, if_pos hpa]
    exact ih ht

/-- Emplacing a fresh key makes it findable. -/
theorem dnMapFind_append_none (m : List (SSLContextKey × ServerSSLContext))
    (k : SSLContextKey) (c : ServerSSLContext) (h : dnMapFind m k = none) :
    dnMapFind (m ++ [(k, c)]) k = some c := by
  induction m with
  | nil => simp [dnMapFind]
  | cons p rest ih =>
    by_cases hk : p.1 = k
    · simp only [dnMapFind, if_pos hk] at h
      exact absurd h (by simp)
    · simp only [dnMapFind, if_neg hk] at h
      simp only [List.cons_append, dnMapFind, if_neg hk]
      exact ih h

/-- Replacing the value at a present key makes the new value findable. -/
theorem dnMapFind_mapReplace (m : List (SSLContextKey × ServerSSLContext))
    (k : SSLContextKey) (v c : ServerSSLContext) (h : dnMapFind m k = some v) :
    dnMapFind (mapReplace m k c) k = some c := by
  induction m with
  | nil => simp [dnMapFind] at h
  | cons p rest ih =>
    by_cases hk : p.1 = k
    · simp only [mapReplace, List.map_cons, if_pos hk]
      simp [dnMapFind, hk]
    · simp only [dnMapFind, if_neg hk] at h
      simp only [mapReplace, List.map_cons, if_neg hk]
      simp only [dnMapFind, if_neg hk]
      exact ih h

/-- A star-free name passes wildcard normalization unchanged. -/
theorem stripStarLabel_no_star (n : DNString) (h : '*' ∉ n) :
    stripStarLabel n = .ok n := by
  cases n with
  | nil => rfl
  | cons a t =>
    cases t with
    | nil => rfl
    | cons b t2 =>
      cases t2 with
      | nil => rfl
      | cons c r =>
        have ha : ¬ a = '*' := fun e => h (by simp [e])
        simp [stripStarLabel, ha]

/-! C10: a dotless lookup name never matches by suffix. -/

/-- C10: for every lookup key whose domain name contains no dot, the
suffix (wildcard) lookup returns no context at any crypto tier, so such
a name is resolved only by the exact-match lookup. -/
theorem c10_no_dot_no_suffix_match (contexts : SslContexts) (n : DNString)
    (t : CertCrypto) (h : '.' ∉ n) :
    getSSLCtxBySuffix contexts ⟨n, t⟩ = none
    ∧ getSSLCtx contexts ⟨n, t⟩ = getSSLCtxByExactDomain contexts ⟨n, t⟩ := by
  have hd : hasDot n = false := hasDot_eq_false n h
  have hs : getSSLCtxBySuffix contexts ⟨n, t⟩ = none := by
    simp [getSSLCtxBySuffix, hd]
  refine ⟨hs, ?_⟩
  unfold getSSLCtx
  cases hE : getSSLCtxByExactDomain contexts ⟨n, t⟩ <;> simp [hE, hs]

/-- Witness for C10 at the dotless name localhost against a populated
index. -/
theorem c10_witness :
    getSSLCtxBySuffix demoSetExactOnly ⟨"localhost".toList, CertCrypto.BEST_AVAILABLE⟩
      = none :=
  (c10_no_dot_no_suffix_match demoSetExactOnly ("localhost".toList)
    CertCrypto.BEST_AVAILABLE (by decide)).1

/-! C7: one-label wildcard semantics of the suffix lookup. -/

/-- C7: with the wildcard identity *.d stored as the suffix key .d, a
query for x.d with no exact entry resolves to the wildcard context;
a query for x.y.d consults only the suffix key .y.d, which differs from
.d, so the one-label wildcard does not apply two labels deep. -/
theorem c7_wildcard_single_label (m : SslContexts) (c : ServerSSLContext)
    (t : CertCrypto) (x y d : DNString)
    (hx : '.' ∉ x) (hxne : x ≠ []) (hy : '.' ∉ y) (hyne : y ≠ []) :
    (dnMapFind m.dnMap ⟨'.' :: d, t⟩ = some c →
      dnMapFind m.dnMap ⟨x ++ '.' :: d, t⟩ = none →
      getSSLCtx m ⟨x ++ '.' :: d, t⟩ = some c)
    ∧ (getSSLCtxBySuffix m ⟨x ++ '.' :: y ++ '.' :: d, t⟩
        = dnMapFind m.dnMap ⟨'.' :: y ++ '.' :: d, t⟩)
    ∧ ('.' :: y ++ '.' :: d ≠ ('.' :: d : DNString)) := by
  refine ⟨?_, ?_, ?_⟩
  · intro hw he
    unfold getSSLCtx getSSLCtxByExactDomain
    rw [he]
    unfold getSSLCtxBySuffix
    simp only [hasDot_eq_true, if_true, suffixFromFirstDot_append x d hx]
    exact hw
  · simp [getSSLCtxBySuffix, hasDot_eq_true x (y ++ '.' :: d),
      suffixFromFirstDot_append x (y ++ '.' :: d) hx]
  · intro e
    have hlen : ('.' :: y ++ '.' :: d).length = ('.' :: d : DNString).length := by
      rw [e]
    have hy1 : 0 < y.length := List.length_pos.mpr hyne
    simp only [List.length_cons, List.length_append] at hlen
    omega

/-- Witness for C7: the wildcard entry for .d.example answers the query
x.d.example when no exact entry exists. -/
theorem c7_witness :
    getSSLCtx demoSetWildcardOnly
      ⟨"x".toList ++ '.' :: "d.example".toList, CertCrypto.BEST_AVAILABLE⟩
      = some (demoCtx 4) :=
  (c7_wildcard_single_label demoSetWildcardOnly (demoCtx 4) CertCrypto.BEST_AVAILABLE
    ("x".toList) ("y".toList) ("d.example".toList)
    (by decide) (by decide) (by decide) (by decide)).1 (by decide) (by decide)

/-! C2: crypto-tier inference from the ClientHello. -/

/-- The inferred tier is weak exactly when ClientHello info is present,
no SHA-256 signature algorithm was advertised, and the SERVER_NAME
extension is absent. -/
theorem inferCertCryptoReq_eq_weak_iff (ci : ClientHelloInfo) :
    inferCertCryptoReq (some ci) = CertCrypto.SHA1_SIGNATURE ↔
      ((∀ p ∈ ci.clientHelloSigAlgs, p.1 ≠ HashAlgorithm.SHA256)
        ∧ TLSExtension.SERVER_NAME ∉ ci.clientHelloExtensions) := by
  cases hA : ci.clientHelloExtensions.any (fun e => decide (e = TLSExtension.SERVER_NAME)) with
  | true =>
    have hmem : TLSExtension.SERVER_NAME ∈ ci.clientHelloExtensions := by
      rcases List.any_eq_true.mp hA with ⟨e, he, hd⟩
      have he2 : e = TLSExtension.SERVER_NAME := by simpa using hd
      exact he2 ▸ he
    have hval : inferCertCryptoReq (some ci) = CertCrypto.BEST_AVAILABLE := by
      simp [inferCertCryptoReq, hA]
    rw [hval]
    constructor
    · intro h
      simp at h
    · rintro ⟨_, hnot⟩
      exact absurd hmem hnot
  | false =>
    have hmem : TLSExtension.SERVER_NAME ∉ ci.clientHelloExtensions := by
      intro hin
      have h2 : ci.clientHelloExtensions.any
          (fun e => decide (e = TLSExtension.SERVER_NAME)) = true :=
        List.any_eq_true.mpr ⟨TLSExtension.SERVER_NAME, hin, by simp⟩
      rw [hA] at h2
      cases h2
    cases hB : ci.clientHelloSigAlgs.any (fun p => decide (p.1 = HashAlgorithm.SHA256)) with
    | true =>
      have hex : ¬ (∀ p ∈ ci.clientHelloSigAlgs, p.1 ≠ HashAlgorithm.SHA256) := by
        rcases List.any_eq_true.mp hB with ⟨p, hp, hd⟩
        have hps : p.1 = HashAlgorithm.SHA256 := by simpa using hd
        intro hall
        exact hall p hp hps
      have hval : inferCertCryptoReq (some ci) = CertCrypto.BEST_AVAILABLE := by
        simp [inferCertCryptoReq, hA, hB]
      rw [hval]
      constructor
      · intro h
        simp at h
      · rintro ⟨hall, _⟩
        exact absurd hall hex
    | false =>
      have hall : ∀ p ∈ ci.clientHelloSigAlgs, p.1 ≠ HashAlgorithm.SHA256 := by
        intro p hp he
        have h2 : ci.clientHelloSigAlgs.any
            (fun p => decide (p.1 = HashAlgorithm.SHA256)) = true :=
          List.any_eq_true.mpr ⟨p, hp, by simp [he]⟩
        rw [hB] at h2
        cases h2
      have hval : inferCertCryptoReq (some ci) = CertCrypto.SHA1_SIGNATURE := by
        simp [inferCertCryptoReq, hA, hB]
      rw [hval]
      constructor
      · intro _
        exact ⟨hall, hmem⟩
      · intro _
        rfl

/-- C2: the inferred tier is BEST_AVAILABLE by default; with ClientHello
info it is weak exactly when no SHA-256 sigalg was advertised and the
SERVER_NAME extension is absent; the presence of SERVER_NAME forces
BEST_AVAILABLE regardless of the sigalg list. -/
theorem c2_tier_inference (info : Option ClientHelloInfo) :
    (info = none → inferCertCryptoReq info = CertCrypto.BEST_AVAILABLE)
    ∧ (∀ ci, info = some ci →
        ((inferCertCryptoReq info = CertCrypto.SHA1_SIGNATURE ↔
          ((∀ p ∈ ci.clientHelloSigAlgs, p.1 ≠ HashAlgorithm.SHA256)
            ∧ TLSExtension.SERVER_NAME ∉ ci.clientHelloExtensions))
         ∧ (TLSExtension.SERVER_NAME ∈ ci.clientHelloExtensions →
            inferCertCryptoReq info = CertCrypto.BEST_AVAILABLE))) := by
  constructor
  · rintro rfl
    rfl
  · rintro ci rfl
    refine ⟨inferCertCryptoReq_eq_weak_iff ci, ?_⟩
    intro hin
    cases h : inferCertCryptoReq (some ci) with
    | BEST_AVAILABLE => rfl
    | SHA1_SIGNATURE =>
      have hw := (inferCertCryptoReq_eq_weak_iff ci).mp h
      exact absurd hin hw.2

/-- Witness for C2: a client advertising only SHA-1 sigalgs and no
extensions is inferred weak. -/
theorem c2_witness :
    inferCertCryptoReq (some demoHelloSha1Only) = CertCrypto.SHA1_SIGNATURE :=
  (((c2_tier_inference (some demoHelloSha1Only)).2 demoHelloSha1Only rfl).1).mpr
    ⟨by decide, by decide⟩

/-! C1: selection order of the SNI lookup. -/

/-- C1: with no hook installed the callback returns exactly the lookup
pass at the inferred tier; a lookup pass tries exact then wildcard at
the requested tier and repeats both at BEST_AVAILABLE only for a weak
request, so an exact match at the requested tier always wins, and any
match at the requested tier wins over the upgraded tier. -/
theorem c1_selection_order (contexts : SslContexts) (n : DNString)
    (t : CertCrypto) (info : Option ClientHelloInfo) :
    ((serverNameCallback contexts none (some n) info).found
        = lookupPass contexts n (inferCertCryptoReq info))
    ∧ (lookupPass contexts n t =
        match getSSLCtxByExactDomain contexts ⟨n, t⟩ with
        | some c => some c
        | none =>
          match getSSLCtxBySuffix contexts ⟨n, t⟩ with
          | some c => some c
          | none =>
            if t = CertCrypto.SHA1_SIGNATURE then
              match getSSLCtxByExactDomain contexts ⟨n, CertCrypto.BEST_AVAILABLE⟩ with
              | some c => some c
              | none => getSSLCtxBySuffix contexts ⟨n, CertCrypto.BEST_AVAILABLE⟩
            else none)
    ∧ (∀ c, getSSLCtxByExactDomain contexts ⟨n, t⟩ = some c →
        lookupPass contexts n t = some c)
    ∧ (∀ c, getSSLCtx contexts ⟨n, t⟩ = some c → lookupPass contexts n t = some c) := by
  refine ⟨?_, ?_, ?_, ?_⟩
  · simp only [serverNameCallback]
    cases h : lookupPass contexts n (inferCertCryptoReq info) with
    | some ctx => simp [h]
    | none => simp [h]
  · unfold lookupPass
    cases hE : getSSLCtxByExactDomain contexts ⟨n, t⟩ with
    | some c => simp [getSSLCtx, hE]
    | none =>
      cases hS : getSSLCtxBySuffix contexts ⟨n, t⟩ with
      | some c => simp [getSSLCtx, hE, hS]
      | none => cases t <;> simp [getSSLCtx, hE, hS]
  · intro c hE
    simp [lookupPass, getSSLCtx, hE]
  · intro c hG
    simp [lookupPass, hG]

/-- Witness for C1: with both an exact and a wildcard weak entry
present, the exact one is selected. -/
theorem c1_witness :
    lookupPass demoSetExactAndWildcard ("a.example".toList) CertCrypto.SHA1_SIGNATURE
      = some (demoCtx 1) :=
  (c1_selection_order demoSetExactAndWildcard ("a.example".toList)
      CertCrypto.SHA1_SIGNATURE (some demoHelloSha1Only)).2.2.1 (demoCtx 1) (by decide)

/-! C8: absent SNI versus empty-string SNI. -/

/-- Counterexample to C8 as stated: an empty-string SNI is not treated
like an absent one; the lookup runs on the empty name (missing the
default-domain entry) and the handshake counts as having a server name,
while an absent SNI substitutes the default domain and matches. -/
theorem c8_empty_sni_not_treated_as_absent :
    ((serverNameCallback demoSetDefaultDomain none (some ([] : DNString)) none).found = none)
    ∧ ((serverNameCallback demoSetDefaultDomain none (some ([] : DNString)) none).reqHasServerName
        = true)
    ∧ ((serverNameCallback demoSetDefaultDomain none none none).found = some (demoCtx 5))
    ∧ ((serverNameCallback demoSetDefaultDomain none none none).reqHasServerName = false) := by
  decide

/-- C8 amended: only an absent servername (null pointer from the TLS
engine) substitutes defaultDomain and is counted as having no server
name; any present SNI string, the empty string included, is used as the
lookup name unchanged and counted as having a server name. -/
theorem c8_absent_sni_uses_default (contexts : SslContexts)
    (noMatchFn : Option (DNString → SslContexts → SslContexts × Bool))
    (info : Option ClientHelloInfo) :
    ((serverNameCallback contexts noMatchFn none info).usedName
        = contexts.defaultCtxDomainName
      ∧ (serverNameCallback contexts noMatchFn none info).reqHasServerName = false)
    ∧ (∀ s : DNString,
        (serverNameCallback contexts noMatchFn (some s) info).usedName = s
        ∧ (serverNameCallback contexts noMatchFn (some s) info).reqHasServerName = true) := by
  constructor
  · simp only [serverNameCallback]
    cases h : lookupPass contexts contexts.defaultCtxDomainName (inferCertCryptoReq info) with
    | some ctx => simp [h]
    | none =>
      cases noMatchFn with
      | none => simp [h]
      | some f =>
        rcases hf : f contexts.defaultCtxDomainName contexts with ⟨c2, b⟩
        cases b <;> simp [h, hf]
  · intro s
    simp only [serverNameCallback]
    cases h : lookupPass contexts s (inferCertCryptoReq info) with
    | some ctx => simp [h]
    | none =>
      cases noMatchFn with
      | none => simp [h]
      | some f =>
        rcases hf : f s contexts with ⟨c2, b⟩
        cases b <;> simp [h, hf]

/-! C9: the no-match hook runs at most once and a retry needs true. -/

/-- Counterexample to C9 as stated: a hook that adds the queried
certificate but returns false gets no retry; the callback reports
NOT-FOUND even though retrying the lookup on the post-hook set would
succeed. -/
theorem c9_hook_false_no_retry :
    ((serverNameCallback emptyContexts (some demoHookAddsButFalse)
        (some ("b.example".toList)) none).found = none)
    ∧ ((serverNameCallback emptyContexts (some demoHookAddsButFalse)
        (some ("b.example".toList)) none).hookCalls = 1)
    ∧ (lookupPass
        (serverNameCallback emptyContexts (some demoHookAddsButFalse)
          (some ("b.example".toList)) none).finalContexts
        ("b.example".toList) (inferCertCryptoReq none) = some (demoCtx 9)) := by
  decide

/-- C9 amended: the hook is invoked at most once, and only after the
first lookup pass fails; the full lookup is retried exactly once more
only when the hook returns true; when it returns false, NOT-FOUND is
returned without a retry. -/
theorem c9_hook_once_retry_on_true (contexts : SslContexts)
    (fn : DNString → SslContexts → SslContexts × Bool)
    (sn : DNString) (info : Option ClientHelloInfo) :
    ((serverNameCallback contexts (some fn) (some sn) info).hookCalls ≤ 1)
    ∧ (∀ c, lookupPass contexts sn (inferCertCryptoReq info) = some c →
        (serverNameCallback contexts (some fn) (some sn) info).hookCalls = 0
        ∧ (serverNameCallback contexts (some fn) (some sn) info).found = some c)
    ∧ (lookupPass contexts sn (inferCertCryptoReq info) = none →
        (serverNameCallback contexts (some fn) (some sn) info).hookCalls = 1
        ∧ (∀ c2, fn sn contexts = (c2, true) →
            (serverNameCallback contexts (some fn) (some sn) info).found
              = lookupPass c2 sn (inferCertCryptoReq info))
        ∧ (∀ c2, fn sn contexts = (c2, false) →
            (serverNameCallback contexts (some fn) (some sn) info).found = none)) := by
  refine ⟨?_, ?_, ?_⟩
  · simp only [serverNameCallback]
    cases h : lookupPass contexts sn (inferCertCryptoReq info) with
    | some ctx => simp [h]
    | none =>
      rcases hf : fn sn contexts with ⟨c2, b⟩
      cases b <;> simp [h, hf]
  · intro c h
    simp [serverNameCallback, h]
  · intro h
    refine ⟨?_, ?_, ?_⟩
    · simp only [serverNameCallback]
      rcases hf : fn sn contexts with ⟨c2, b⟩
      cases b <;> simp [h, hf]
    · intro c2 hf
      simp [serverNameCallback, h, hf]
    · intro c2 hf
      simp [serverNameCallback, h, hf]

/-- Witness for C9 amended: the demo hook runs exactly once on a miss. -/
theorem c9_amended_witness :
    (serverNameCallback emptyContexts (some demoHookAddsButFalse)
      (some ("b.example".toList)) none).hookCalls = 1 :=
  ((c9_hook_once_retry_on_true emptyContexts demoHookAddsButFalse
      ("b.example".toList) none).2.2 (by decide)).1

/-! C3: dnMap insertion semantics. -/

/-- C3: insertion at the certificate's tier overwrites (a later
insertion for the same key replaces the earlier context); non-overwrite
insertion never displaces a different context already present;
re-inserting the same context under the same key leaves the map
unchanged; and the domain-name insertion routine performs the overwrite
insert at the certificate's tier followed, for a weak certificate only,
by a non-overwrite insert of the same context at BEST_AVAILABLE. -/
theorem c3_insertion_semantics (m : SslContexts) (key : SSLContextKey)
    (c other : ServerSSLContext) :
    (dnMapFind (insertIntoDnMap key c true m).dnMap key = some c)
    ∧ (dnMapFind m.dnMap key = some other → other ≠ c →
        insertIntoDnMap key c false m = m)
    ∧ (dnMapFind m.dnMap key = some c → ∀ ow : Bool, insertIntoDnMap key c ow m = m)
    ∧ (∀ (n : DNString) (t : CertCrypto), '*' ∉ n → n ≠ ['.'] →
        insertSSLCtxByDomainNameImpl n c m t =
          (if t = CertCrypto.BEST_AVAILABLE then insertIntoDnMap ⟨n, t⟩ c true m
           else insertIntoDnMap ⟨n, CertCrypto.BEST_AVAILABLE⟩ c false
             (insertIntoDnMap ⟨n, t⟩ c true m), none)) := by
  refine ⟨?_, ?_, ?_, ?_⟩
  · cases h : dnMapFind m.dnMap key with
    | none =>
      simp only [insertIntoDnMap, h]
      exact dnMapFind_append_none m.dnMap key c h
    | some v =>
      by_cases hv : v = c
      · simp only [insertIntoDnMap, h, if_pos hv]
        rw [hv]
      · simp only [insertIntoDnMap, h, if_neg hv, eq_self_iff_true, if_true]
        exact dnMapFind_mapReplace m.dnMap key v c h
  · intro h hne
    unfold insertIntoDnMap
    simp only [h]
    have hne2 : ¬ other = c := hne
    simp [hne2]
  · intro h ow
    unfold insertIntoDnMap
    simp [h]
  · intro n t hstar hdot
    unfold insertSSLCtxByDomainNameImpl
    simp only [stripStarLabel_no_star n hstar]
    rw [if_neg hdot, if_neg hstar]
    cases t with
    | SHA1_SIGNATURE => simp
    | BEST_AVAILABLE => simp

/-- Witness for C3: a non-overwrite insert of a different context at an
occupied key leaves the index untouched. -/
theorem c3_witness :
    insertIntoDnMap ⟨"a.example".toList, CertCrypto.BEST_AVAILABLE⟩ (demoCtx 7) false
      demoSetExactOnly = demoSetExactOnly :=
  (c3_insertion_semantics demoSetExactOnly
      ⟨"a.example".toList, CertCrypto.BEST_AVAILABLE⟩
      (demoCtx 7) (demoCtx 3)).2.1 (by decide) (by decide)

/-! Preservation lemmas for the insertion pipeline. -/

/-- insertIntoDnMap touches only the dnMap field. -/
theorem insertIntoDnMap_preserves (key : SSLContextKey) (c : ServerSSLContext)
    (ow : Bool) (m : SslContexts) :
    (insertIntoDnMap key c ow m).ctxs = m.ctxs
    ∧ (insertIntoDnMap key c ow m).defaultCtx = m.defaultCtx
    ∧ (insertIntoDnMap key c ow m).defaultCtxDomainName = m.defaultCtxDomainName := by
  cases h : dnMapFind m.dnMap key with
  | none => simp [insertIntoDnMap, h]
  | some v =>
    by_cases hv : v = c
    · simp [insertIntoDnMap, h, hv]
    · cases ow <;> simp [insertIntoDnMap, h, hv]

/-- The domain-name insertion routine touches only the dnMap field. -/
theorem insertSSLCtxByDomainNameImpl_preserves (dn : DNString) (c : ServerSSLContext)
    (m : SslContexts) (cc : CertCrypto) :
    ((insertSSLCtxByDomainNameImpl dn c m cc).1.ctxs = m.ctxs)
    ∧ ((insertSSLCtxByDomainNameImpl dn c m cc).1.defaultCtx = m.defaultCtx)
    ∧ ((insertSSLCtxByDomainNameImpl dn c m cc).1.defaultCtxDomainName
        = m.defaultCtxDomainName) := by
  unfold insertSSLCtxByDomainNameImpl
  cases stripStarLabel dn with
  | error e => exact ⟨rfl, rfl, rfl⟩
  | ok dn2 =>
    by_cases h1 : dn2 = ['.']
    · simp [h1]
    · by_cases h2 : '*' ∈ dn2
      · simp [h1, h2]
      · by_cases h3 : cc = CertCrypto.BEST_AVAILABLE
        · subst h3
          have p1 := insertIntoDnMap_preserves ⟨dn2, CertCrypto.BEST_AVAILABLE⟩ c true m
          simp [h1, h2, p1.1, p1.2.1, p1.2.2]
        · have p1 := insertIntoDnMap_preserves ⟨dn2, cc⟩ c true m
          have p2 := insertIntoDnMap_preserves ⟨dn2, CertCrypto.BEST_AVAILABLE⟩ c false
            (insertIntoDnMap ⟨dn2, cc⟩ c true m)
          simp [h1, h2, h3, p1.1, p1.2.1, p1.2.2, p2.1, p2.2.1, p2.2.2]

/-- Strict-or-not, the catching wrapper touches only the dnMap field. -/
theorem insertSSLCtxByDomainName_preserves (strict : Bool) (dn : DNString)
    (c : ServerSSLContext) (m : SslContexts) (cc : CertCrypto) :
    ((insertSSLCtxByDomainName strict dn c m cc).1.ctxs = m.ctxs)
    ∧ ((insertSSLCtxByDomainName strict dn c m cc).1.defaultCtx = m.defaultCtx)
    ∧ ((insertSSLCtxByDomainName strict dn c m cc).1.defaultCtxDomainName
        = m.defaultCtxDomainName) := by
  have hp := insertSSLCtxByDomainNameImpl_preserves dn c m cc
  unfold insertSSLCtxByDomainName
  cases h : insertSSLCtxByDomainNameImpl dn c m cc with
  | mk c2 err =>
    rw [h] at hp
    cases err with
    | none => exact hp
    | some e => cases strict with
      | true => exact hp
      | false => exact hp

/-- The SAN insertion loop touches only the dnMap field. -/
theorem insertAltNames_preserves (strict : Bool) (l : List DNString)
    (c : ServerSSLContext) (cc : CertCrypto) :
    ∀ (m : SslContexts),
      ((insertAltNames strict l c m cc).1.ctxs = m.ctxs)
      ∧ ((insertAltNames strict l c m cc).1.defaultCtx = m.defaultCtx)
      ∧ ((insertAltNames strict l c m cc).1.defaultCtxDomainName
          = m.defaultCtxDomainName) := by
  induction l with
  | nil => intro m; exact ⟨rfl, rfl, rfl⟩
  | cons dn rest ih =>
    intro m
    have hp := insertSSLCtxByDomainName_preserves strict dn c m cc
    unfold insertAltNames
    cases h : insertSSLCtxByDomainName strict dn c m cc with
    | mk c2 err =>
      rw [h] at hp
      cases err with
      | some e => exact hp
      | none =>
        have hr := ih c2
        exact ⟨hr.1.trans hp.1, hr.2.1.trans hp.2.1, hr.2.2.trans hp.2.2⟩

/-- The SNI setup block touches only the defaultCtx field. -/
theorem ctxSetupByOpensslFeature_preserves (c : ServerSSLContext) (isDef : Bool)
    (m : SslContexts) :
    ((ctxSetupByOpensslFeature c isDef m).1.ctxs = m.ctxs)
    ∧ ((ctxSetupByOpensslFeature c isDef m).1.defaultCtxDomainName
        = m.defaultCtxDomainName)
    ∧ ((ctxSetupByOpensslFeature c isDef m).1.dnMap = m.dnMap) := by
  unfold ctxSetupByOpensslFeature
  cases isDef with
  | false => simp
  | true =>
    cases hd : m.defaultCtx with
    | some d => simp [hd]
    | none => simp [hd]

/-- Observable state of insert on success: the handle is appended to
ctxs; a default non-star CN is recorded as defaultDomain; a star CN or
a non-default insertion leaves defaultDomain unchanged. -/
theorem insert_ok_fields (sslCtx : ServerSSLContext) (df strict : Bool)
    (m c2 : SslContexts) (h : insert sslCtx df strict m = (c2, none)) :
    c2.ctxs = m.ctxs ++ [sslCtx]
    ∧ (∀ cn, sslCtx.cert.cn = some cn → cn ≠ ['*'] → df = true →
        c2.defaultCtxDomainName = cn)
    ∧ (sslCtx.cert.cn = some ['*'] →
        c2.defaultCtxDomainName = m.defaultCtxDomainName)
    ∧ (df = false → c2.defaultCtxDomainName = m.defaultCtxDomainName) := by
  unfold insert at h
  cases hcn : sslCtx.cert.cn with
  | none =>
    simp only [hcn] at h
    simp at h
  | some cn =>
    simp only [hcn] at h
    by_cases hstar : cn = ['*']
    · simp only [if_pos hstar] at h
      cases df with
      | false => simp at h
      | true =>
        simp at h
        subst h
        refine ⟨rfl, ?_, ?_, ?_⟩
        · intro cn2 hcn2 hne _
          injection hcn2 with he
          exact absurd (he ▸ hstar) hne
        · intro _; rfl
        · intro hdf; simp at hdf
    · simp only [if_neg hstar] at h
      rcases hN : insertSSLCtxByDomainName strict cn sslCtx m (certCryptoOf sslCtx.cert)
        with ⟨cA, eA⟩
      cases eA with
      | some e => simp [hN] at h
      | none =>
        simp only [hN] at h
        rcases hAlt : insertAltNames strict
            (match sslCtx.cert.subjectAltName with | some l => l | none => [])
            sslCtx cA (certCryptoOf sslCtx.cert) with ⟨cB, eB⟩
        cases eB with
        | some e => simp [hAlt] at h
        | none =>
          simp only [hAlt] at h
          have pA := insertSSLCtxByDomainName_preserves strict cn sslCtx m
            (certCryptoOf sslCtx.cert)
          rw [hN] at pA
          have pB := insertAltNames_preserves strict
            (match sslCtx.cert.subjectAltName with | some l => l | none => [])
            sslCtx (certCryptoOf sslCtx.cert) cA
          rw [hAlt] at pB
          simp at pA pB
          simp at h
          subst h
          cases df with
          | true =>
            refine ⟨?_, ?_, ?_, ?_⟩
            · simp [pB.1, pA.1]
            · intro cn2 hcn2 _ _
              injection hcn2 with he
            · intro hs
              injection hs with he
              exact absurd he hstar
            · intro hdf; simp at hdf
          | false =>
            refine ⟨?_, ?_, ?_, ?_⟩
            · simp [pB.1, pA.1]
            · intro _ _ _ hdf; simp at hdf
            · intro hs
              injection hs with he
              exact absurd he hstar
            · intro _
              simp [pB.2.2, pA.2.2]

/-! C6: recording of the default domain. -/

/-- Counterexample to C6 as stated: a star-CN certificate inserted with
the default flag becomes defaultCtx, yet its CN is never recorded as
defaultDomain (insert returns before the recording step), so the stated
invariant fails for a star-CN default. -/
theorem c6_star_default_domain_not_recorded :
    ((addSSLContextConfig true demoCfgStar none 3 emptyContexts).2 = none)
    ∧ ((addSSLContextConfig true demoCfgStar none 3 emptyContexts).1.defaultCtx
        = some demoStarCtx)
    ∧ (demoStarCtx.cert.cn = some ['*'])
    ∧ ((addSSLContextConfig true demoCfgStar none 3 emptyContexts).1.defaultCtxDomainName
        ≠ ['*']) := by
  decide

/-- C6 amended: a context inserted with the default flag records its
certificate's CN as the ContextSet's defaultDomain, except when the CN
is the literal star, in which case insert returns early and
defaultDomain is left unchanged. -/
theorem c6_default_domain_records_cn (sslCtx : ServerSSLContext) (strict : Bool)
    (m c2 : SslContexts) (n : DNString) :
    (sslCtx.cert.cn = some n → n ≠ ['*'] →
      insert sslCtx true strict m = (c2, none) →
      c2.defaultCtxDomainName = n)
    ∧ (sslCtx.cert.cn = some ['*'] →
      insert sslCtx true strict m = (c2, none) →
      c2.defaultCtxDomainName = m.defaultCtxDomainName) := by
  constructor
  · intro hcn hns h
    exact (insert_ok_fields sslCtx true strict m c2 h).2.1 n hcn hns rfl
  · intro hcn h
    exact (insert_ok_fields sslCtx true strict m c2 h).2.2.1 hcn

/-- Witness for C6 amended: inserting the default a.example handle into
the empty set records a.example as the default domain. -/
theorem c6_witness :
    (insert demoCtxA true true emptyContexts).1.defaultCtxDomainName
      = "a.example".toList :=
  (c6_default_domain_records_cn demoCtxA true emptyContexts
      (insert demoCtxA true true emptyContexts).1 ("a.example".toList)).1
    (by decide) (by decide) (by decide)

/-! C4: ticket-seed carry-over across a reset. -/

/-- On a successful addSSLContextConfig, every context of the resulting
set was either already present or is the newly built handle carrying
the supplied ticket seeds. -/
theorem addSSLContextConfig_ok_new_ctx (strict : Bool) (cfg : SSLContextConfig)
    (seeds : TLSTicketKeySeeds) (freshId : Nat) (m c2 : SslContexts)
    (h : addSSLContextConfig strict cfg (some seeds) freshId m = (c2, none)) :
    ∀ ctx ∈ c2.ctxs, ctx ∈ m.ctxs ∨ ctx.ticketManager = some seeds := by
  unfold addSSLContextConfig at h
  cases hL : certLoop (cfg.isLocalPrivateKey || cfg.offloadTypeEmpty) none "" none
      cfg.certificates with
  | error e => simp [hL] at h
  | ok lastX =>
    simp only [hL] at h
    cases hS : cfg.setupError with
    | some e => simp [hS] at h
    | none =>
      simp only [hS] at h
      rcases hC : ctxSetupByOpensslFeature (buildCtx (some seeds) freshId lastX)
          cfg.isDefault m with ⟨c1, e1⟩
      cases e1 with
      | some e => simp [hC] at h
      | none =>
        simp only [hC] at h
        rcases hI : insert (buildCtx (some seeds) freshId lastX) cfg.isDefault strict c1
            with ⟨cI, eI⟩
        cases eI with
        | some e => simp [hI] at h
        | none =>
          simp only [hI] at h
          simp at h
          subst h
          have hctxs := (insert_ok_fields _ _ _ _ _ hI).1
          have hset := (ctxSetupByOpensslFeature_preserves
            (buildCtx (some seeds) freshId lastX) cfg.isDefault m).1
          rw [hC] at hset
          simp at hset
          intro ctx hmem
          rw [hctxs, hset] at hmem
          rcases List.mem_append.mp hmem with hin | hnew
          · exact Or.inl hin
          · have he : ctx = buildCtx (some seeds) freshId lastX := by
              simpa using hnew
            exact Or.inr (by rw [he]; rfl)

/-- The reset loop over configuration entries propagates the supplied
seeds into every context of the set it builds. -/
theorem addAllConfigs_ticket (strict : Bool) (cfgs : List SSLContextConfig)
    (seeds : TLSTicketKeySeeds) :
    ∀ (freshId : Nat) (m c2 : SslContexts),
      (∀ ctx ∈ m.ctxs, ctx.ticketManager = some seeds) →
      addAllConfigs strict cfgs seeds freshId m = (c2, none) →
      ∀ ctx ∈ c2.ctxs, ctx.ticketManager = some seeds := by
  induction cfgs with
  | nil =>
    intro freshId m c2 hm h
    simp [addAllConfigs] at h
    subst h
    exact hm
  | cons cfg rest ih =>
    intro freshId m c2 hm h
    unfold addAllConfigs at h
    rcases hA : addSSLContextConfig strict cfg (some seeds) freshId m with ⟨cA, eA⟩
    cases eA with
    | some e => simp [hA] at h
    | none =>
      simp only [hA] at h
      have hsub := addSSLContextConfig_ok_new_ctx strict cfg seeds freshId m cA hA
      have hmA : ∀ ctx ∈ cA.ctxs, ctx.ticketManager = some seeds := by
        intro ctx hc
        rcases hsub ctx hc with hin | htm
        · exact hm ctx hin
        · exact htm
      exact ih (freshId + 1) cA c2 hmA h

/-- C4: after a reset in which the caller supplied no ticket seeds,
every context of the new live set holds exactly the seed triple taken
from the first previously live context whose ticket manager is
non-null (scanFirstSeeds embeds that scan). -/
theorem c4_ticket_seed_carry_over (strict : Bool) (cfgs : List SSLContextConfig)
    (baseId : Nat) (live fresh : SslContexts)
    (hok : resetSSLContextConfigs strict cfgs none baseId live = (fresh, none)) :
    ∀ ctx ∈ fresh.ctxs, ctx.ticketManager = some (scanFirstSeeds live.ctxs) := by
  simp only [resetSSLContextConfigs] at hok
  rcases hA : addAllConfigs strict cfgs (scanFirstSeeds live.ctxs) baseId emptyContexts
    with ⟨cA, eA⟩
  cases eA with
  | some e => simp [hA] at hok
  | none =>
    simp only [hA] at hok
    simp at hok
    subst hok
    exact addAllConfigs_ticket strict cfgs (scanFirstSeeds live.ctxs) baseId
      emptyContexts cA (by intro ctx hc; simp [emptyContexts] at hc) hA

/-- Witness for C4: the context built from demoCfgA after a seedless
reset over demoLiveSeeded carries that live set's seeds. -/
theorem c4_witness :
    demoBuiltA.ticketManager = some (scanFirstSeeds demoLiveSeeded.ctxs) :=
  c4_ticket_seed_carry_over true [demoCfgA] 5 demoLiveSeeded
    (resetSSLContextConfigs true [demoCfgA] none 5 demoLiveSeeded).1
    (by decide) demoBuiltA (by decide)

/-! C5: failure atomicity of reset, non-atomicity of add. -/

/-- Counterexample to C5 as stated: an add applied to the live set that
fails at the SAN-insertion stage leaves the live set mutated (default
context installed and the CN already indexed) while reporting the
error, so a failing add does not leave the live ContextSet unchanged. -/
theorem c5_add_failure_mutates_live :
    ((addSSLContextConfig true demoCfgBadSan none 7 emptyContexts).2.isSome = true)
    ∧ ((addSSLContextConfig true demoCfgBadSan none 7 emptyContexts).1 ≠ emptyContexts) := by
  decide

/-- C5 amended: a reset that fails at any stage leaves the live
ContextSet untouched (the partially built local set is discarded and
the swap never happens); on success the published set is exactly the
one the build loop produced from an empty set; a failing add applied
directly to the live set, however, may leave partial mutations. -/
theorem c5_reset_atomic_on_failure (strict : Bool) (cfgs : List SSLContextConfig)
    (ts : Option TLSTicketKeySeeds) (baseId : Nat) (live after : SslContexts)
    (err : Option String)
    (h : resetSSLContextConfigs strict cfgs ts baseId live = (after, err)) :
    (err.isSome → after = live)
    ∧ (err = none →
        (after, err) = addAllConfigs strict cfgs
          (match ts with | some s => s | none => scanFirstSeeds live.ctxs)
          baseId emptyContexts) := by
  cases ts with
  | none =>
    simp only [resetSSLContextConfigs] at h
    rcases hA : addAllConfigs strict cfgs (scanFirstSeeds live.ctxs) baseId emptyContexts
      with ⟨cA, eA⟩
    cases eA with
    | some e =>
      simp only [hA] at h
      simp at h
      obtain ⟨h1, h2⟩ := h
      constructor
      · intro _
        exact h1.symm
      · intro he
        rw [← h2] at he
        cases he
    | none =>
      simp only [hA] at h
      simp at h
      obtain ⟨h1, h2⟩ := h
      constructor
      · intro hs
        rw [← h2] at hs
        simp at hs
      · intro _
        rw [← h1, ← h2]
  | some s =>
    simp only [resetSSLContextConfigs] at h
    rcases hA : addAllConfigs strict cfgs s baseId emptyContexts with ⟨cA, eA⟩
    cases eA with
    | some e =>
      simp only [hA] at h
      simp at h
      obtain ⟨h1, h2⟩ := h
      constructor
      · intro _
        exact h1.symm
      · intro he
        rw [← h2] at he
        cases he
    | none =>
      simp only [hA] at h
      simp at h
      obtain ⟨h1, h2⟩ := h
      constructor
      · intro hs
        rw [← h2] at hs
        simp at hs
      · intro _
        rw [← h1, ← h2]

/-- Witness for C5 amended: a reset whose only entry fails to load
leaves the seeded live set exactly as it was. -/
theorem c5_amended_witness :
    (resetSSLContextConfigs true [demoCfgBadLoad] none 0 demoLiveSeeded).1
      = demoLiveSeeded :=
  (c5_reset_atomic_on_failure true [demoCfgBadLoad] none 0 demoLiveSeeded
      (resetSSLContextConfigs true [demoCfgBadLoad] none 0 demoLiveSeeded).1
      (resetSSLContextConfigs true [demoCfgBadLoad] none 0 demoLiveSeeded).2
      (by decide)).1 (by decide)

end Wangle
